import Mathlib

/-!
Verification of the panel-game client-side grid/query state model.

Shallow embedding of the TypeScript source:
- `src/unnamed/part_000` (ItemSize, Grid, Color, InferenceResult, DisplayMode)
- `src/frontend/utils/stores.ts` (item inventory store, grid mask store)
- `src/frontend/components/PanelGridContainer.vue` (indexToRowCol, getProbability, getEntropy)
- `src/frontend/components/GridPanelItem.vue` (textColor, label, panelData)
- `src/unnamed/part_001` (requestInference, mask-store subscriber)

JavaScript numbers used as array indices / counts are embedded as `Nat`
(or `Int` where the source's bounds checks admit negative values);
in-range array reads/writes are embedded as total list operations, and
reads that would evaluate to `undefined` or throw a `TypeError` in
JavaScript are made explicit via `Option` / `Except`.
-/

namespace PanelGame

/-- Embedding of `ItemSize` from `src/unnamed/part_000`: a (rows, cols) pair. -/
structure ItemSize where
  rows : Nat
  cols : Nat
  deriving DecidableEq, Repr

/-- An RGB color triple (`Color = [number, number, number]`). -/
abbrev Color := Nat × Nat × Nat

/-- A cell of an inference grid: the `[number, Color]` tuple of the source. -/
structure PanelCell where
  value : ℚ
  color : Color
  deriving DecidableEq

/-- Embedding of `Grid<T>` from `src/unnamed/part_000`: declared dimensions plus row-major data. -/
structure Grid (α : Type) where
  rows : Nat
  cols : Nat
  data : List (List α)
  deriving DecidableEq

/-- Embedding of `InferenceResult` from `src/unnamed/part_000`. -/
structure InferenceResult where
  probabilities : Grid PanelCell
  entropy : Grid PanelCell
  deriving DecidableEq

/-! ## List helpers (total embeddings of JavaScript in-range array update/read) -/

/-- In-place update `l[i] := f l[i]` for an in-range index; out-of-range is the
identity (the theorems below only use it under the grid shape invariant, where
the source's bounds checks guarantee the index is in range). -/
def modifyAt {α : Type} (l : List α) (i : Nat) (f : α → α) : List α :=
  match l, i with
  | [], _ => []
  | a :: as, 0 => f a :: as
  | a :: as, Nat.succ n => a :: modifyAt as n f

/-! ## Grid Mask Store (`useGridStore` in `src/frontend/utils/stores.ts`) -/

/-- State of the grid store: the declared size `_size` (rows, cols) and the
boolean mask grid. -/
structure GridState where
  rows : Nat
  cols : Nat
  mask : List (List Bool)
  deriving DecidableEq

/-- Shape invariant of `Mask : Grid<boolean>`: the data has exactly `rows`
rows, each of length `cols`. -/
def wellFormed (s : GridState) : Prop :=
  s.mask.length = s.rows ∧ ∀ row ∈ s.mask, row.length = s.cols

instance (s : GridState) : Decidable (wellFormed s) := by
  unfold wellFormed; infer_instance

/-- The initial grid store state: `_size = new ItemSize(5, 9)` and an
all-false 5 × 9 mask. -/
def initialGrid : GridState :=
  { rows := 5, cols := 9
    mask := List.replicate 5 (List.replicate 9 false) }

/-- Embedding of `flipMask(x, y)`: silent no-op when `y < 0 || y >= rows || x < 0 || x >= cols`,
otherwise `mask[y][x] = !mask[y][x]`.  Coordinates are `Int` because the
source's bounds check admits negative arguments. -/
def flipMask (s : GridState) (x y : Int) : GridState :=
  if y < 0 ∨ (s.rows : Int) ≤ y ∨ x < 0 ∨ (s.cols : Int) ≤ x then s
  else { s with mask := modifyAt s.mask y.toNat (fun row => modifyAt row x.toNat (fun b => !b)) }

/-- Embedding of `reset()`: replaces the mask with a fresh all-false grid of the current size. -/
def reset (s : GridState) : GridState :=
  { s with mask := List.replicate s.rows (List.replicate s.cols false) }

/-- The read `mask[i][j]` for the iteration ranges used by the source (in range under
the shape invariant). -/
def getCell (mask : List (List Bool)) (i j : Nat) : Bool :=
  (mask.getD i []).getD j false

/-- Embedding of `isAllMasked()`: the double loop over `i < rows`, `j < cols` returning
`false` as soon as some `mask[i][j]` is true. -/
def isAllMasked (s : GridState) : Bool :=
  (List.range s.rows).all fun i =>
    (List.range s.cols).all fun j => !(getCell s.mask i j)

/-! ## Item Inventory Store (`useItemStore` in `src/frontend/utils/stores.ts`) -/

/-- One `{ size, count }` entry of the settings list.  `count` is a
non-negative integer per the data model (the UI selectors only supply such
values). -/
structure ItemSetting where
  size : ItemSize
  count : Nat
  deriving DecidableEq, Repr

/-- A `{ width, height }` rectangle of the request payload. -/
structure Rectangle where
  width : Nat
  height : Nat
  deriving DecidableEq, Repr

/-- The initial settings list of `useItemStore`: four entries, counts 0. -/
def initialSettings : List ItemSetting :=
  [ { size := { rows := 1, cols := 2 }, count := 0 }
  , { size := { rows := 1, cols := 2 }, count := 0 }
  , { size := { rows := 2, cols := 3 }, count := 0 }
  , { size := { rows := 3, cols := 3 }, count := 0 } ]

/-- A `setCount` or `setSize` call on the item store
(`settings.value[index].count = count` / `settings.value[index].size = size`;
callers only use in-range indices). -/
inductive ItemOp where
  | setCount (index : Nat) (count : Nat)
  | setSize (index : Nat) (size : ItemSize)
  deriving DecidableEq, Repr

/-- Apply one store mutation. -/
def applyOp (settings : List ItemSetting) : ItemOp → List ItemSetting
  | ItemOp.setCount i c => modifyAt settings i (fun it => { it with count := c })
  | ItemOp.setSize i sz => modifyAt settings i (fun it => { it with size := sz })

/-- Apply a sequence of `setCount` / `setSize` calls in order. -/
def applyOps (settings : List ItemSetting) (ops : List ItemOp) : List ItemSetting :=
  ops.foldl applyOp settings

/-- The inner loop of `toRectangleArray`: push `count` copies of `r` onto `acc`. -/
def pushCopies (acc : List Rectangle) (r : Rectangle) : Nat → List Rectangle
  | 0 => acc
  | Nat.succ n => pushCopies acc r n ++ [r]

/-- Embedding of `toRectangleArray()`: for each setting in index order, push `count`
copies of `{ width: size.cols, height: size.rows }`. -/
def toRectangleArray (settings : List ItemSetting) : List Rectangle :=
  settings.foldl
    (fun acc item => pushCopies acc { width := item.size.cols, height := item.size.rows } item.count)
    []

/-- The spec's characterization of `toRectangleArray` (§4.2): iterate settings
in index order, emitting `count` copies of `{width: size.cols, height: size.rows}`
each.  Stated separately so the loop implementation can be proved to refine it. -/
def toRectangleArraySpec (settings : List ItemSetting) : List Rectangle :=
  (settings.map fun item =>
    List.replicate item.count { width := item.size.cols, height := item.size.rows }).flatten

/-! ## Inference Result Mapper (`PanelGridContainer.vue`, `GridPanelItem.vue`) -/

/-- Embedding of `indexToRowCol(index)` from `PanelGridContainer.vue`:
`row = Math.floor(index / cols)`, `col = index % cols` (with `cols` the grid
store's column count). -/
def indexToRowCol (index cols : Nat) : Nat × Nat :=
  (index / cols, index % cols)

/-- Error raised by a JavaScript evaluation step.  `typeError` is the runtime
`TypeError` thrown when indexing into `undefined`; `mappingError` is the
`MappingError` the spec (§7) requires for grid-dimension mismatches — it is
listed here so that statements can refer to it, and no function of the
embedded source ever produces it. -/
inductive JsError where
  | typeError
  | mappingError
  deriving DecidableEq, Repr

/-- Value of a JavaScript cell lookup: `null`, `undefined` (silent
out-of-range array read), or an actual `[number, Color]` cell. -/
inductive JsVal where
  | vnull
  | vundefined
  | vcell (c : PanelCell)
  deriving DecidableEq

/-- The read `g.data[row][col]` with JavaScript semantics: a missing row makes
`data[row]` evaluate to `undefined`, so the subsequent `[col]` access throws a
`TypeError`; a present but short row yields `undefined` for `data[row][col]`. -/
def lookupCell (g : Grid PanelCell) (row col : Nat) : Except JsError JsVal :=
  match g.data.get? row with
  | none => Except.error JsError.typeError
  | some r =>
    match r.get? col with
    | none => Except.ok JsVal.vundefined
    | some c => Except.ok (JsVal.vcell c)

/-- Embedding of `getProbability(i)` from `PanelGridContainer.vue`: converts the flat index
with `indexToRowCol`, returns `null` when `inferenceResult` is `null`, and
otherwise evaluates `inferenceResult.probabilities.data[row][col]`. -/
def getProbability (res : Option InferenceResult) (cols i : Nat) : Except JsError JsVal :=
  match res with
  | none => Except.ok JsVal.vnull
  | some r => lookupCell r.probabilities (indexToRowCol i cols).1 (indexToRowCol i cols).2

/-- Embedding of `getEntropy(i)` from `PanelGridContainer.vue`: same as `getProbability`
but over the `entropy` grid. -/
def getEntropy (res : Option InferenceResult) (cols i : Nat) : Except JsError JsVal :=
  match res with
  | none => Except.ok JsVal.vnull
  | some r => lookupCell r.entropy (indexToRowCol i cols).1 (indexToRowCol i cols).2

/-- Embedding of `Math.round(q)` for exact rational inputs: the nearest integer, ties
rounded towards positive infinity, i.e. `⌊q + 1/2⌋`. -/
def jsRound (q : ℚ) : ℤ := ⌊q + 1 / 2⌋

/-- The brightness computation of `textColor` in `GridPanelItem.vue`:
`Math.round((r*299 + g*587 + b*114) / 1000)`. -/
def brightness (c : Color) : ℤ :=
  jsRound (((c.1 : ℚ) * 299 + (c.2.1 : ℚ) * 587 + (c.2.2 : ℚ) * 114) / 1000)

/-- Embedding of `textColor` from `GridPanelItem.vue`: black when the panel datum is
absent; otherwise black iff `brightness > 125`, white otherwise. -/
def textColor (pd : Option PanelCell) : String :=
  match pd with
  | some p => if brightness p.color > 125 then "black" else "white"
  | none => "black"

/-- The character for a decimal digit `d < 10`. -/
def digitChar (d : Nat) : Char := Char.ofNat (48 + d)

/-- Decimal digits of a natural number, most significant first, with a
structural fuel argument (`fuel ≥ 1 +` number of division steps suffices). -/
def natDigitsAux (fuel n : Nat) : List Char :=
  match fuel with
  | 0 => []
  | Nat.succ f =>
    if n < 10 then [digitChar n]
    else natDigitsAux f (n / 10) ++ [digitChar (n % 10)]

/-- ECMAScript `ToString` of a non-negative integer (decimal, no sign, no dot). -/
def natToStr (n : Nat) : String := String.mk (natDigitsAux (n + 1) n)

/-- ECMAScript `Number.prototype.toFixed(2)` for a non-negative exact
rational: `n` is the integer closest to `q * 100` (ties towards the larger),
and the result is the digits of `n / 100`, a dot, and the two remaining
digits. -/
def jsToFixed2Pos (q : ℚ) : String :=
  let n : Nat := (⌊q * 100 + 1 / 2⌋).toNat
  natToStr (n / 100) ++ String.mk ['.', digitChar (n % 100 / 10), digitChar (n % 10)]

/-- ECMAScript `toFixed(2)`: strips the sign first (per the specification's
algorithm), then formats the non-negative part. -/
def jsToFixed2 (q : ℚ) : String :=
  if q < 0 then "-" ++ jsToFixed2Pos (-q) else jsToFixed2Pos q

/-- Embedding of `label` from `GridPanelItem.vue`: empty string when the panel datum is
absent, otherwise `value.toFixed(2)`. -/
def label (pd : Option PanelCell) : String :=
  match pd with
  | some p => jsToFixed2 p.value
  | none => ""

/-! ## Request Orchestrator (`src/unnamed/part_001`) -/

/-- The top-level view state: the displayed `estimates` result and the
`isShowWaitIndicator` flag. -/
structure OrchState where
  estimates : Option InferenceResult
  isShowWaitIndicator : Bool
  deriving DecidableEq

/-- Embedding of `requestInference` from `src/unnamed/part_001`, as a function of the
fetch outcome. The source sets the indicator, awaits `$fetch`, then stores
the result and clears the indicator; there is no `try`/`catch`, so when the
fetch rejects the two statements after the `await` never execute and the
exception propagates. -/
def requestInference (s : OrchState) (response : Except Unit InferenceResult) : OrchState :=
  let s1 : OrchState := { s with isShowWaitIndicator := true }
  match response with
  | Except.ok data => { s1 with estimates := some data, isShowWaitIndicator := false }
  | Except.error _ => s1

/-- The `$subscribe` observer from `src/unnamed/part_001`: after a grid store
mutation, clear `estimates` when `isAllMasked()` holds. -/
def maskObserver (s : OrchState) (g : GridState) : OrchState :=
  if isAllMasked g then { s with estimates := none } else s

/-- A dimension-mismatched response: the mask declares 5 × 9 but the returned
grids carry a single data row. -/
def badResult : InferenceResult :=
  { probabilities :=
      { rows := 5, cols := 9, data := [List.replicate 9 { value := 0, color := (0, 0, 0) }] }
  , entropy :=
      { rows := 5, cols := 9, data := [List.replicate 9 { value := 0, color := (0, 0, 0) }] } }

/-- A well-formed 5 × 9 inference result used as a concrete displayed result. -/
def sampleResult : InferenceResult :=
  { probabilities :=
      { rows := 5, cols := 9
        data := List.replicate 5 (List.replicate 9 { value := 0, color := (0, 0, 0) }) }
  , entropy :=
      { rows := 5, cols := 9
        data := List.replicate 5 (List.replicate 9 { value := 0, color := (0, 0, 0) }) } }

/-! ## Helper lemmas on the list operations -/

theorem modifyAt_length {α : Type} (l : List α) (i : Nat) (f : α → α) :
    (modifyAt l i f).length = l.length := by
  induction l generalizing i with
  | nil => rfl
  | cons a as ih =>
    cases i with
    | zero => rfl
    | succ n => simp [modifyAt, ih]

theorem modifyAt_modifyAt {α : Type} (l : List α) (i : Nat) (f g : α → α) :
    modifyAt (modifyAt l i f) i g = modifyAt l i (fun a => g (f a)) := by
  induction l generalizing i with
  | nil => rfl
  | cons a as ih =>
    cases i with
    | zero => rfl
    | succ n => simp [modifyAt, ih]

theorem modifyAt_id {α : Type} (l : List α) (i : Nat) :
    modifyAt l i (fun a => a) = l := by
  induction l generalizing i with
  | nil => rfl
  | cons a as ih =>
    cases i with
    | zero => rfl
    | succ n => simp [modifyAt, ih]

theorem getD_modifyAt_ne {α : Type} (l : List α) (i j : Nat) (f : α → α) (d : α)
    (h : i ≠ j) : (modifyAt l j f).getD i d = l.getD i d := by
  induction l generalizing i j with
  | nil => rfl
  | cons a as ih =>
    cases j with
    | zero =>
      cases i with
      | zero => exact absurd rfl h
      | succ m => rfl
    | succ n =>
      cases i with
      | zero => rfl
      | succ m =>
        simpa [modifyAt, List.getD] using ih m n (fun hc => h (by simp [hc]))

theorem getD_modifyAt_self {α : Type} (l : List α) (i : Nat) (f : α → α) (d : α)
    (h : i < l.length) : (modifyAt l i f).getD i d = f (l.getD i d) := by
  induction l generalizing i with
  | nil => simp at h
  | cons a as ih =>
    cases i with
    | zero => rfl
    | succ n =>
      simpa [modifyAt, List.getD] using ih n (by simpa using h)

theorem getD_replicate {α : Type} (n i : Nat) (a d : α) (h : i < n) :
    (List.replicate n a).getD i d = a := by
  induction n generalizing i with
  | zero => omega
  | succ m ih =>
    cases i with
    | zero => rfl
    | succ k =>
      simpa [List.replicate, List.getD] using ih k (by omega)

theorem getD_mem {α : Type} (l : List α) (i : Nat) (d : α) (h : i < l.length) :
    l.getD i d ∈ l := by
  induction l generalizing i with
  | nil => simp at h
  | cons a as ih =>
    cases i with
    | zero => simp [List.getD]
    | succ n =>
      exact List.mem_cons_of_mem a (ih n (by simpa using h))

theorem getD_eq_get {α : Type} (l : List α) (i : Nat) (d : α) (h : i < l.length) :
    l.getD i d = l.get ⟨i, h⟩ := by
  induction l generalizing i with
  | nil => simp at h
  | cons a as ih =>
    cases i with
    | zero => rfl
    | succ n => simpa [List.getD] using ih n (by simpa using h)

theorem mem_modifyAt {α : Type} (l : List α) (i : Nat) (f : α → α) :
    ∀ a ∈ modifyAt l i f, a ∈ l ∨ ∃ b, b ∈ l ∧ a = f b := by
  induction l generalizing i with
  | nil => intro a ha; simp [modifyAt] at ha
  | cons x xs ih =>
    cases i with
    | zero =>
      intro a ha
      rcases List.mem_cons.mp ha with h1 | h2
      · exact Or.inr ⟨x, by simp, h1⟩
      · exact Or.inl (List.mem_cons_of_mem x h2)
    | succ n =>
      intro a ha
      rcases List.mem_cons.mp ha with h1 | h2
      · exact Or.inl (by simp [h1])
      · rcases ih n a h2 with h3 | ⟨b, hb, hfb⟩
        · exact Or.inl (List.mem_cons_of_mem x h3)
        · exact Or.inr ⟨b, List.mem_cons_of_mem x hb, hfb⟩

/-! ## Grid mask store lemmas -/

theorem flipMask_of_in_range (s : GridState) (x y : Int)
    (hx0 : 0 ≤ x) (hxc : x < (s.cols : Int)) (hy0 : 0 ≤ y) (hyr : y < (s.rows : Int)) :
    flipMask s x y
      = { s with mask := modifyAt s.mask y.toNat (fun row => modifyAt row x.toNat (fun b => !b)) } := by
  unfold flipMask
  rw [if_neg (by omega)]

/-- C5: flipMask is an involution on in-range coordinates (for mask states
satisfying the grid shape invariant), and a single out-of-range call leaves
the state — in particular every mask cell — unchanged. -/
theorem flipMask_involution :
    (∀ (s : GridState) (x y : Int), wellFormed s →
        0 ≤ x → x < (s.cols : Int) → 0 ≤ y → y < (s.rows : Int) →
        flipMask (flipMask s x y) x y = s)
    ∧ (∀ (s : GridState) (x y : Int),
        (x < 0 ∨ (s.cols : Int) ≤ x ∨ y < 0 ∨ (s.rows : Int) ≤ y) →
        flipMask s x y = s) := by
  constructor
  · intro s x y _ hx0 hxc hy0 hyr
    rw [flipMask_of_in_range s x y hx0 hxc hy0 hyr]
    rw [flipMask_of_in_range _ x y hx0 (by simpa using hxc) hy0 (by simpa using hyr)]
    have hmask :
        modifyAt (modifyAt s.mask y.toNat (fun row => modifyAt row x.toNat (fun b => !b)))
            y.toNat (fun row => modifyAt row x.toNat (fun b => !b)) = s.mask := by
      rw [modifyAt_modifyAt]
      have hrow : (fun row => modifyAt (modifyAt row x.toNat (fun b => !b)) x.toNat (fun b => !b))
          = fun row : List Bool => row := by
        funext row
        rw [modifyAt_modifyAt]
        have : (fun b : Bool => !!b) = fun b : Bool => b := by
          funext b; cases b <;> rfl
        rw [this, modifyAt_id]
      rw [hrow, modifyAt_id]
    cases s with
    | mk rows cols mask => simpa using hmask
  · intro s x y h
    unfold flipMask
    rw [if_pos (by omega)]

/-- C5 witness: flipping cell (2, 3) of the initial 5 × 9 grid twice restores
it, and the out-of-range call `flipMask(9, 0)` is a no-op. -/
theorem flipMask_involution_witness :
    flipMask (flipMask initialGrid 2 3) 2 3 = initialGrid
    ∧ flipMask initialGrid 9 0 = initialGrid :=
  ⟨flipMask_involution.1 initialGrid 2 3 (by decide) (by decide) (by decide) (by decide) (by decide),
   flipMask_involution.2 initialGrid 9 0 (by decide)⟩

/-- C10: an in-range flipMask toggles exactly the cell `mask[y][x]` and
leaves every other cell unchanged; flipMask and reset preserve the grid
shape invariant and the declared size. -/
theorem flipMask_frame :
    (∀ (s : GridState) (x y : Int) (i j : Nat), wellFormed s →
        0 ≤ x → x < (s.cols : Int) → 0 ≤ y → y < (s.rows : Int) →
        (i ≠ y.toNat ∨ j ≠ x.toNat) →
        getCell (flipMask s x y).mask i j = getCell s.mask i j)
    ∧ (∀ (s : GridState) (x y : Int), wellFormed s →
        0 ≤ x → x < (s.cols : Int) → 0 ≤ y → y < (s.rows : Int) →
        getCell (flipMask s x y).mask y.toNat x.toNat = !(getCell s.mask y.toNat x.toNat))
    ∧ (∀ (s : GridState) (x y : Int), wellFormed s →
        wellFormed (flipMask s x y)
        ∧ (flipMask s x y).rows = s.rows ∧ (flipMask s x y).cols = s.cols)
    ∧ (∀ s : GridState,
        wellFormed (reset s) ∧ (reset s).rows = s.rows ∧ (reset s).cols = s.cols) := by
  refine ⟨?_, ?_, ?_, ?_⟩
  · intro s x y i j hwf hx0 hxc hy0 hyr hne
    rw [flipMask_of_in_range s x y hx0 hxc hy0 hyr]
    unfold getCell
    rcases eq_or_ne i y.toNat with hi | hi
    · subst hi
      rcases hne with hne | hne
      · exact absurd rfl hne
      · have hilen : y.toNat < s.mask.length := by
          rw [hwf.1]; omega
        rw [getD_modifyAt_self s.mask y.toNat _ [] hilen]
        exact getD_modifyAt_ne _ j x.toNat _ false hne
    · rw [getD_modifyAt_ne s.mask i y.toNat _ [] hi]
  · intro s x y hwf hx0 hxc hy0 hyr
    rw [flipMask_of_in_range s x y hx0 hxc hy0 hyr]
    unfold getCell
    have hilen : y.toNat < s.mask.length := by
      rw [hwf.1]; omega
    rw [getD_modifyAt_self s.mask y.toNat _ [] hilen]
    have hrowlen : x.toNat < (s.mask.getD y.toNat []).length := by
      rw [hwf.2 _ (getD_mem s.mask y.toNat [] hilen)]; omega
    exact getD_modifyAt_self _ x.toNat _ false hrowlen
  · intro s x y hwf
    unfold flipMask
    split
    · exact ⟨hwf, rfl, rfl⟩
    · refine ⟨⟨?_, ?_⟩, rfl, rfl⟩
      · simpa [modifyAt_length] using hwf.1
      · intro row hrow
        rcases mem_modifyAt s.mask y.toNat _ row hrow with h1 | ⟨b, hb, hfb⟩
        · exact hwf.2 row h1
        · rw [hfb, modifyAt_length]
          exact hwf.2 b hb
  · intro s
    refine ⟨⟨by simp [reset], ?_⟩, rfl, rfl⟩
    intro row hrow
    rw [List.eq_of_mem_replicate hrow]
    simp [reset]

/-- C10 witness: concrete frame, toggle, and shape-preservation facts on the
initial 5 × 9 grid. -/
theorem flipMask_frame_witness :
    getCell (flipMask initialGrid 2 3).mask 0 0 = getCell initialGrid.mask 0 0
    ∧ getCell (flipMask initialGrid 2 3).mask 3 2 = !(getCell initialGrid.mask 3 2)
    ∧ wellFormed (flipMask initialGrid 2 3)
    ∧ wellFormed (reset initialGrid) :=
  ⟨flipMask_frame.1 initialGrid 2 3 0 0 (by decide) (by decide) (by decide) (by decide) (by decide)
      (Or.inl (by decide)),
   flipMask_frame.2.1 initialGrid 2 3 (by decide) (by decide) (by decide) (by decide) (by decide),
   (flipMask_frame.2.2.1 initialGrid 2 3 (by decide)).1,
   (flipMask_frame.2.2.2 initialGrid).1⟩

/-- C6: reset always yields a state on which isAllMasked returns true, and
(under the grid shape invariant) isAllMasked returns true iff every cell of
the mask is false. -/
theorem reset_isAllMasked :
    (∀ s : GridState, isAllMasked (reset s) = true)
    ∧ (∀ s : GridState, wellFormed s →
        (isAllMasked s = true ↔ ∀ row ∈ s.mask, ∀ b ∈ row, b = false)) := by
  constructor
  · intro s
    simp only [isAllMasked, reset, List.all_eq_true, List.mem_range]
    intro i hi j hj
    rw [getCell, getD_replicate s.rows i _ [] hi, getD_replicate s.cols j _ false hj]
    rfl
  · intro s hwf
    simp only [isAllMasked, List.all_eq_true, List.mem_range]
    constructor
    · intro hall row hrow b hb
      rcases List.mem_iff_get.mp hrow with ⟨⟨i, hi⟩, hrowi⟩
      rcases List.mem_iff_get.mp hb with ⟨⟨j, hj⟩, hbj⟩
      have hir : i < s.rows := by rw [← hwf.1]; exact hi
      have hjc : j < s.cols := by
        rw [← hwf.2 row hrow]; exact hj
      have := hall i hir j hjc
      rw [getCell, getD_eq_get s.mask i [] hi, hrowi, getD_eq_get row j false hj, hbj] at this
      simpa using this
    · intro hcells i hi j hj
      have hilen : i < s.mask.length := by rw [hwf.1]; exact hi
      have hrowmem : s.mask.getD i [] ∈ s.mask := getD_mem s.mask i [] hilen
      have hjlen : j < (s.mask.getD i []).length := by
        rw [hwf.2 _ hrowmem]; exact hj
      have hbmem : (s.mask.getD i []).getD j false ∈ s.mask.getD i [] :=
        getD_mem _ j false hjlen
      have := hcells _ hrowmem _ hbmem
      rw [getCell, this]
      rfl

/-- C6 witness: the iff instantiated at the initial grid state. -/
theorem reset_isAllMasked_witness :
    isAllMasked initialGrid = true ↔ ∀ row ∈ initialGrid.mask, ∀ b ∈ row, b = false :=
  reset_isAllMasked.2 initialGrid (by decide)

/-- C7: indexToRowCol computes `row = ⌊index / cols⌋` and `col = index % cols`,
and `row * cols + col` recovers the index for every flat index below
`rows * cols` when `cols` is positive. -/
theorem indexToRowCol_roundtrip :
    ∀ index cols rows : Nat, 0 < cols → index < rows * cols →
      (indexToRowCol index cols).1 = index / cols
      ∧ (indexToRowCol index cols).2 = index % cols
      ∧ (indexToRowCol index cols).1 * cols + (indexToRowCol index cols).2 = index := by
  intro index cols rows _ _
  refine ⟨rfl, rfl, ?_⟩
  show index / cols * cols + index % cols = index
  rw [Nat.mul_comm (index / cols) cols]
  exact Nat.div_add_mod index cols

/-- C7 witness: the roundtrip at index 13 on the 5 × 9 grid. -/
theorem indexToRowCol_roundtrip_witness :
    (indexToRowCol 13 9).1 = 13 / 9
    ∧ (indexToRowCol 13 9).2 = 13 % 9
    ∧ (indexToRowCol 13 9).1 * 9 + (indexToRowCol 13 9).2 = 13 :=
  indexToRowCol_roundtrip 13 9 5 (by decide) (by decide)

/-- C3: whenever a grid store mutation leaves `isAllMasked()` true, the
subscriber clears the displayed result to absent, in every orchestrator
state (waiting or not). -/
theorem maskObserver_clears :
    ∀ (s : OrchState) (g : GridState), isAllMasked g = true →
      (maskObserver s g).estimates = none := by
  intro s g h
  simp [maskObserver, h]

/-- C3 witness: a displayed result is cleared on the fully revealed initial
grid while the waiting flag is set. -/
theorem maskObserver_clears_witness :
    (maskObserver { estimates := some sampleResult, isShowWaitIndicator := true }
        initialGrid).estimates = none :=
  maskObserver_clears { estimates := some sampleResult, isShowWaitIndicator := true }
    initialGrid (by decide)

/-- C2 (code behavior at a failed request): when the fetch rejects, the
statements after the `await` are skipped, so the waiting indicator is left
set — not cleared — while the previously displayed result is preserved. -/
theorem requestInference_failure_state :
    ∀ s : OrchState,
      (requestInference s (Except.error ())).isShowWaitIndicator = true
      ∧ (requestInference s (Except.error ())).estimates = s.estimates := by
  intro s
  exact ⟨rfl, rfl⟩

/-- C1 (code behavior at a dimension mismatch): neither getProbability nor
getEntropy can ever produce a MappingError, and on a response whose grids
have too few data rows the lookup at an in-range flat index throws a
TypeError (indexing into `undefined`) instead. -/
theorem getPanelData_mismatch_no_mappingError :
    (∀ (res : Option InferenceResult) (cols i : Nat),
        getProbability res cols i ≠ Except.error JsError.mappingError
        ∧ getEntropy res cols i ≠ Except.error JsError.mappingError)
    ∧ getProbability (some badResult) 9 9 = Except.error JsError.typeError
    ∧ getEntropy (some badResult) 9 9 = Except.error JsError.typeError := by
  have hlookup : ∀ (g : Grid PanelCell) (row col : Nat),
      lookupCell g row col ≠ Except.error JsError.mappingError := by
    intro g row col
    unfold lookupCell
    split
    · intro h
      injection h with h2
      exact JsError.noConfusion h2
    · split
      · intro h; exact Except.noConfusion h
      · intro h; exact Except.noConfusion h
  refine ⟨?_, rfl, rfl⟩
  intro res cols i
  cases res with
  | none =>
    exact ⟨fun h => Except.noConfusion h, fun h => Except.noConfusion h⟩
  | some r =>
    exact ⟨hlookup r.probabilities _ _, hlookup r.entropy _ _⟩

/-! ## Item inventory store lemmas -/

theorem pushCopies_eq (acc : List Rectangle) (r : Rectangle) (n : Nat) :
    pushCopies acc r n = acc ++ List.replicate n r := by
  induction n with
  | zero => simp [pushCopies]
  | succ m ih =>
    rw [pushCopies, ih, List.replicate_succ' m r, List.append_assoc]

theorem toRectangleArray_foldl (settings : List ItemSetting) :
    ∀ acc : List Rectangle,
      settings.foldl
          (fun acc item =>
            pushCopies acc { width := item.size.cols, height := item.size.rows } item.count)
          acc
        = acc ++ toRectangleArraySpec settings := by
  induction settings with
  | nil => intro acc; simp [toRectangleArraySpec]
  | cons s ss ih =>
    intro acc
    rw [List.foldl_cons, ih, pushCopies_eq]
    simp [toRectangleArraySpec, List.append_assoc]

theorem toRectangleArray_eq_spec (settings : List ItemSetting) :
    toRectangleArray settings = toRectangleArraySpec settings := by
  rw [toRectangleArray, toRectangleArray_foldl settings []]
  rfl

theorem toRectangleArraySpec_length (settings : List ItemSetting) :
    (toRectangleArraySpec settings).length = (settings.map fun it => it.count).sum := by
  induction settings with
  | nil => rfl
  | cons s ss ih =>
    simp [toRectangleArraySpec, List.length_append, List.length_replicate] at *
    simpa using ih

theorem toRectangleArraySpec_all_zero (settings : List ItemSetting)
    (h : ∀ it ∈ settings, it.count = 0) : toRectangleArraySpec settings = [] := by
  induction settings with
  | nil => rfl
  | cons s ss ih =>
    have hs : s.count = 0 := h s (by simp)
    have hrest := ih fun it hit => h it (List.mem_cons_of_mem s hit)
    simp [toRectangleArraySpec, hs] at *
    exact hrest

/-- C4: after any sequence of setCount/setSize calls, toRectangleArray emits,
in setting-index order (then repetition order), `count` copies of
`{width: size.cols, height: size.rows}` per setting; its length is the sum
of all counts, and it is empty when all counts are zero. -/
theorem toRectangleArray_correct :
    ∀ ops : List ItemOp,
      toRectangleArray (applyOps initialSettings ops)
          = toRectangleArraySpec (applyOps initialSettings ops)
      ∧ (toRectangleArray (applyOps initialSettings ops)).length
          = ((applyOps initialSettings ops).map fun it => it.count).sum
      ∧ ((∀ it ∈ applyOps initialSettings ops, it.count = 0) →
          toRectangleArray (applyOps initialSettings ops) = []) := by
  intro ops
  refine ⟨toRectangleArray_eq_spec _, ?_, ?_⟩
  · rw [toRectangleArray_eq_spec]
    exact toRectangleArraySpec_length _
  · intro hall
    rw [toRectangleArray_eq_spec]
    exact toRectangleArraySpec_all_zero _ hall

/-- C4 witness: with no mutations every count is zero and the rectangle
sequence is empty. -/
theorem toRectangleArray_correct_witness :
    toRectangleArray (applyOps initialSettings []) = [] :=
  (toRectangleArray_correct []).2.2 (by decide)

/-- C8: textColor defaults to black on an absent datum; on a present datum it
compares the rounded luma-weighted brightness against 125 with a strict `>`:
(255,255,255) gives black, (0,0,0) gives white, and brightness exactly 125
gives white. -/
theorem textColor_correct :
    textColor none = "black"
    ∧ textColor (some { value := 0, color := (255, 255, 255) }) = "black"
    ∧ textColor (some { value := 0, color := (0, 0, 0) }) = "white"
    ∧ brightness (125, 125, 125) = 125
    ∧ (∀ (v : ℚ) (c : Color), brightness c = 125 →
        textColor (some { value := v, color := c }) = "white")
    ∧ (∀ (v : ℚ) (c : Color),
        textColor (some { value := v, color := c })
          = if brightness c > 125 then "black" else "white") := by
  refine ⟨rfl, ?_, ?_, ?_, ?_, ?_⟩
  · show (if brightness (255, 255, 255) > 125 then "black" else "white") = "black"
    norm_num [brightness, jsRound]
  · show (if brightness (0, 0, 0) > 125 then "black" else "white") = "white"
    norm_num [brightness, jsRound]
  · norm_num [brightness, jsRound]
  · intro v c h
    show (if brightness c > 125 then "black" else "white") = "white"
    rw [h]
    norm_num
  · intro v c
    rfl

/-- C8 witness: the gray (125,125,125), whose brightness is exactly 125,
selects white text. -/
theorem textColor_correct_witness :
    textColor (some { value := 0, color := (125, 125, 125) }) = "white" :=
  textColor_correct.2.2.2.2.1 0 (125, 125, 125) (by norm_num [brightness, jsRound])

/-! ## Decimal formatting lemmas -/

theorem isDigit_digitChar (d : Nat) (h : d < 10) : (digitChar d).isDigit = true := by
  interval_cases d <;> decide

theorem natDigitsAux_digits :
    ∀ fuel n : Nat, ∀ c ∈ natDigitsAux fuel n, c.isDigit = true := by
  intro fuel
  induction fuel with
  | zero => intro n c hc; simp [natDigitsAux] at hc
  | succ f ih =>
    intro n c hc
    rw [natDigitsAux] at hc
    by_cases h : n < 10
    · rw [if_pos h] at hc
      rw [List.mem_singleton.mp hc]
      exact isDigit_digitChar n h
    · rw [if_neg h] at hc
      rcases List.mem_append.mp hc with h1 | h2
      · exact ih (n / 10) c h1
      · rw [List.mem_singleton.mp h2]
        exact isDigit_digitChar _ (Nat.mod_lt n (by norm_num))

theorem jsToFixed2Pos_data (q : ℚ) :
    ∃ pre : List Char,
      (jsToFixed2Pos q).data
          = pre ++ ['.', digitChar ((⌊q * 100 + 1 / 2⌋).toNat % 100 / 10),
                    digitChar ((⌊q * 100 + 1 / 2⌋).toNat % 10)]
      ∧ ∀ c ∈ pre, c.isDigit = true := by
  refine ⟨(natToStr ((⌊q * 100 + 1 / 2⌋).toNat / 100)).data, rfl, ?_⟩
  intro c hc
  exact natDigitsAux_digits _ _ c hc

/-- C9: label is the empty string on an absent datum; on a present datum the
value is rendered with exactly two digits after the decimal point
(0.5 becomes "0.50" and 1 becomes "1.00"). -/
theorem label_two_decimals :
    label none = ""
    ∧ label (some { value := 1 / 2, color := (0, 0, 0) }) = "0.50"
    ∧ label (some { value := 1, color := (0, 0, 0) }) = "1.00"
    ∧ ∀ q : ℚ, ∃ (pre : List Char) (c1 c2 : Char),
        (jsToFixed2 q).data = pre ++ ['.', c1, c2]
        ∧ c1.isDigit = true ∧ c2.isDigit = true ∧ '.' ∉ pre := by
  refine ⟨rfl, ?_, ?_, ?_⟩
  · show jsToFixed2 (1 / 2 : ℚ) = "0.50"
    rw [jsToFixed2, if_neg (by norm_num)]
    have h : ⌊(1 / 2 : ℚ) * 100 + 1 / 2⌋ = (50 : ℤ) := by norm_num
    simp only [jsToFixed2Pos, h]
    decide
  · show jsToFixed2 (1 : ℚ) = "1.00"
    rw [jsToFixed2, if_neg (by norm_num)]
    have h : ⌊(1 : ℚ) * 100 + 1 / 2⌋ = (100 : ℤ) := by norm_num
    simp only [jsToFixed2Pos, h]
    decide
  · intro q
    by_cases hq : q < 0
    · rw [jsToFixed2, if_pos hq]
      obtain ⟨pre, hdata, hdig⟩ := jsToFixed2Pos_data (-q)
      refine ⟨'-' :: pre, digitChar ((⌊-q * 100 + 1 / 2⌋).toNat % 100 / 10),
        digitChar ((⌊-q * 100 + 1 / 2⌋).toNat % 10), ?_, ?_, ?_, ?_⟩
      · have hstep : ("-" ++ jsToFixed2Pos (-q)).data = '-' :: (jsToFixed2Pos (-q)).data := rfl
        rw [hstep, hdata]
        rfl
      · exact isDigit_digitChar _ (by omega)
      · exact isDigit_digitChar _ (by omega)
      · intro hmem
        rcases List.mem_cons.mp hmem with h1 | h2
        · exact absurd h1 (by decide)
        · exact absurd (hdig '.' h2) (by decide)
    · rw [jsToFixed2, if_neg hq]
      obtain ⟨pre, hdata, hdig⟩ := jsToFixed2Pos_data q
      refine ⟨pre, digitChar ((⌊q * 100 + 1 / 2⌋).toNat % 100 / 10),
        digitChar ((⌊q * 100 + 1 / 2⌋).toNat % 10), hdata, ?_, ?_, ?_⟩
      · exact isDigit_digitChar _ (by omega)
      · exact isDigit_digitChar _ (by omega)
      · intro hmem
        exact absurd (hdig '.' hmem) (by decide)

end PanelGame
